import Mathlib

/-!
A shallow embedding of the `surf` repository (Rust): an ingester that
extracts vote and transfer records from a ledger network and persists
them into an embedded key-value store (RocksDB) with secondary indexes,
serving a small read API.

Modelling conventions:
* Bytes are `Nat` (always < 256 in actual data, though most theorems need
  no range bound); byte strings are `List Nat`.
* `postcard` serialization (the Rust crate used by `store.rs`) encodes a
  `u64` as an unsigned LEB128 varint, a Solana `Signature` as its 64 raw
  bytes, a `Pubkey` as its 32 raw bytes, and a struct as the
  concatenation of its fields' encodings.  `postcard::from_bytes` ignores
  trailing bytes.  Machine integers (`u64`) are modelled as `Nat`; no
  arithmetic in the modelled code can overflow a `u64` in the scenarios
  the claims quantify over, so no `% 2^64` reduction is needed.
* Each RocksDB column family is an association list of
  `(key bytes, value bytes)` pairs; `put` overwrites in place and `get`
  returns the first binding.  The `prefix_iterator` is modelled
  faithfully to the configuration the code uses — no prefix extractor,
  default bytewise comparator — so it seeks to the first key at or
  after the given bytes and iterates, in ascending key order, to the
  end of the column family.  Full iteration is taken in list order;
  the claims consume it only up to membership and singleton states,
  where that coincides with RocksDB's sorted order.
* Fallible RocksDB writes are modelled twice: the always-succeeding path
  (`saveVote`, `saveTransfer`), and a variant threading an oracle telling
  which underlying `put` calls succeed (`saveVoteWith`,
  `saveTransferWith`), used to reason about partially failed saves.
-/

/-- The `postcard` varint (unsigned LEB128) encoding of a natural number,
with explicit fuel to keep the recursion structural; the fuel never runs
out when it is at least the number of 7-bit digits, which `encodeVarint`
arranges. -/
def encodeVarintAux : Nat → Nat → List Nat
  | 0, n => [n % 128]
  | fuel + 1, n =>
    if n < 128 then [n] else (n % 128 + 128) :: encodeVarintAux fuel (n / 128)

/-- The `postcard` varint (unsigned LEB128) encoding of a `u64`:
the low 7 bits with a continuation bit while more bits remain.
Source: the `postcard` crate's `u64` serialization used throughout
`store.rs` via `postcard::to_stdvec` / `postcard::to_extend`. -/
def encodeVarint (n : Nat) : List Nat :=
  encodeVarintAux n n

/-- The `postcard` varint decoding: returns the decoded number and the
remaining bytes, or `none` on truncated input. -/
def decodeVarint : List Nat → Option (Nat × List Nat)
  | [] => none
  | b :: rest =>
    if b < 128 then some (b, rest)
    else
      match decodeVarint rest with
      | none => none
      | some (m, r) => some (b - 128 + 128 * m, r)

theorem encodeVarintAux_congr :
    ∀ f g n : Nat, n ≤ f → n ≤ g → encodeVarintAux f n = encodeVarintAux g n := by
  intro f
  induction f with
  | zero =>
    intro g n hf _
    interval_cases n
    cases g <;> simp [encodeVarintAux]
  | succ f ih =>
    intro g n hf hg
    match g with
    | 0 =>
      interval_cases n
      simp [encodeVarintAux]
    | g + 1 =>
      simp only [encodeVarintAux]
      by_cases h : n < 128
      · simp [h]
      · simp only [h, if_false]
        have hn : 0 < n := by omega
        have hlt : n / 128 < n := Nat.div_lt_self hn (by norm_num)
        exact congrArg _ (ih g (n / 128) (by omega) (by omega))

/-- The characteristic unfolding of the varint encoder: this is the
source algorithm, free of the fuel artifact. -/
theorem encodeVarint_eq (n : Nat) :
    encodeVarint n = if n < 128 then [n] else (n % 128 + 128) :: encodeVarint (n / 128) := by
  by_cases h : n < 128
  · simp only [encodeVarint, h, if_true]
    match n, h with
    | 0, _ => simp [encodeVarintAux]
    | m + 1, h => simp [encodeVarintAux, h]
  · simp only [encodeVarint, h, if_false]
    have hn : 0 < n := by omega
    have hlt : n / 128 < n := Nat.div_lt_self hn (by norm_num)
    match hm : n, hn with
    | m + 1, _ =>
      simp only [encodeVarintAux, h, if_false]
      exact congrArg _ (encodeVarintAux_congr m ((m + 1) / 128) ((m + 1) / 128) (by omega) le_rfl)

/-- Decoding inverts encoding, with the remainder passed through. -/
theorem decodeVarint_encodeVarint (n : Nat) (rest : List Nat) :
    decodeVarint (encodeVarint n ++ rest) = some (n, rest) := by
  induction n using Nat.strong_induction_on with
  | _ n ih =>
    rw [encodeVarint_eq]
    by_cases h : n < 128
    · simp [h, decodeVarint]
    · have hn : 0 < n := by omega
      have hlt : n / 128 < n := Nat.div_lt_self hn (by norm_num)
      simp only [h, if_false, List.cons_append, decodeVarint]
      have h2 : ¬ (n % 128 + 128 < 128) := by omega
      simp only [h2, if_false, ih (n / 128) hlt]
      have h3 : n % 128 + 128 - 128 + 128 * (n / 128) = n := by omega
      rw [h3]

/-- Read exactly `n` bytes off the front of a byte string
(the `postcard` decoding of a fixed-size byte array). -/
def takeBytes : Nat → List Nat → Option (List Nat × List Nat)
  | 0, bs => some ([], bs)
  | _ + 1, [] => none
  | n + 1, b :: bs =>
    match takeBytes n bs with
    | none => none
    | some (xs, r) => some (b :: xs, r)

theorem takeBytes_append (xs rest : List Nat) :
    takeBytes xs.length (xs ++ rest) = some (xs, rest) := by
  induction xs with
  | nil => simp [takeBytes]
  | cons b bs ih => simp [takeBytes, ih]

theorem takeBytes_exact (n : Nat) (xs rest : List Nat) (h : xs.length = n) :
    takeBytes n (xs ++ rest) = some (xs, rest) := by
  subst h; exact takeBytes_append xs rest

theorem takeBytes_exact_nil (n : Nat) (xs : List Nat) (h : xs.length = n) :
    takeBytes n xs = some (xs, []) := by
  subst h
  have := takeBytes_append xs []
  simpa using this

theorem decodeVarint_encode_nil (n : Nat) :
    decodeVarint (encodeVarint n) = some (n, []) := by
  have := decodeVarint_encodeVarint n []
  simpa using this

/-- A transaction signature (`solana_sdk::signature::Signature`):
64 raw bytes under `postcard`. -/
structure Signature where
  bytes : List Nat
deriving DecidableEq

/-- A participant address (`solana_sdk::pubkey::Pubkey`):
32 raw bytes under `postcard`. -/
structure Pubkey where
  bytes : List Nat
deriving DecidableEq

/-- Well-formedness of a signature: exactly 64 bytes, as every real
Solana signature is. -/
def Signature.wf (s : Signature) : Prop := s.bytes.length = 64

/-- Well-formedness of an address: exactly 32 bytes. -/
def Pubkey.wf (p : Pubkey) : Prop := p.bytes.length = 32

instance : DecidablePred Signature.wf := fun s => by
  unfold Signature.wf; infer_instance

instance : DecidablePred Pubkey.wf := fun p => by
  unfold Pubkey.wf; infer_instance

/-- From `record.rs`: a stake-vote record. -/
structure Vote where
  signature : Signature
  block_index : Nat
  timestamp : Nat
  author : Pubkey
  target : Pubkey
deriving DecidableEq

/-- From `record.rs`: a value-transfer record. -/
structure Transfer where
  signature : Signature
  block_index : Nat
  timestamp : Nat
  source : Pubkey
  destination : Pubkey
  lamports : Nat
deriving DecidableEq

/-- From `record.rs`: the tagged union handed from the extractor to the
committer. -/
inductive Record where
  | vote (v : Vote)
  | transfer (t : Transfer)
deriving DecidableEq

/-- A vote is well-formed when its signature and addresses have their
fixed widths. -/
def Vote.wf (v : Vote) : Prop :=
  v.signature.wf ∧ v.author.wf ∧ v.target.wf

/-- A transfer is well-formed when its signature and addresses have
their fixed widths. -/
def Transfer.wf (t : Transfer) : Prop :=
  t.signature.wf ∧ t.source.wf ∧ t.destination.wf

instance : DecidablePred Vote.wf := fun v => by
  unfold Vote.wf; infer_instance

instance : DecidablePred Transfer.wf := fun t => by
  unfold Transfer.wf; infer_instance

/-- The `postcard` encoding of a `Signature` (64 raw bytes). -/
def encodeSignature (s : Signature) : List Nat := s.bytes

/-- The `postcard` decoding of a `Signature`: 64 bytes off the front,
trailing bytes ignored (as `postcard::from_bytes` does). -/
def decodeSignature (bs : List Nat) : Option Signature :=
  match takeBytes 64 bs with
  | none => none
  | some (xs, _) => some ⟨xs⟩

/-- The `postcard` encoding of a `Vote`: fields in declaration order
(`signature`, `block_index`, `timestamp`, `author`, `target`). -/
def encodeVote (v : Vote) : List Nat :=
  v.signature.bytes ++ encodeVarint v.block_index ++ encodeVarint v.timestamp
    ++ v.author.bytes ++ v.target.bytes

/-- The `postcard` decoding of a `Vote`. -/
def decodeVote (bs : List Nat) : Option Vote :=
  match takeBytes 64 bs with
  | none => none
  | some (sig, bs) =>
    match decodeVarint bs with
    | none => none
    | some (bi, bs) =>
      match decodeVarint bs with
      | none => none
      | some (ts, bs) =>
        match takeBytes 32 bs with
        | none => none
        | some (author, bs) =>
          match takeBytes 32 bs with
          | none => none
          | some (target, _) => some ⟨⟨sig⟩, bi, ts, ⟨author⟩, ⟨target⟩⟩

/-- The `postcard` encoding of a `Transfer`: fields in declaration order
(`signature`, `block_index`, `timestamp`, `source`, `destination`,
`lamports`). -/
def encodeTransfer (t : Transfer) : List Nat :=
  t.signature.bytes ++ encodeVarint t.block_index ++ encodeVarint t.timestamp
    ++ t.source.bytes ++ t.destination.bytes ++ encodeVarint t.lamports

/-- The `postcard` decoding of a `Transfer`. -/
def decodeTransfer (bs : List Nat) : Option Transfer :=
  match takeBytes 64 bs with
  | none => none
  | some (sig, bs) =>
    match decodeVarint bs with
    | none => none
    | some (bi, bs) =>
      match decodeVarint bs with
      | none => none
      | some (ts, bs) =>
        match takeBytes 32 bs with
        | none => none
        | some (source, bs) =>
          match takeBytes 32 bs with
          | none => none
          | some (dest, bs) =>
            match decodeVarint bs with
            | none => none
            | some (lam, _) => some ⟨⟨sig⟩, bi, ts, ⟨source⟩, ⟨dest⟩, lam⟩

theorem decodeSignature_encodeSignature (s : Signature) (rest : List Nat)
    (h : s.wf) : decodeSignature (encodeSignature s ++ rest) = some s := by
  have : s.bytes.length = 64 := h
  simp [decodeSignature, encodeSignature, ← this, takeBytes_append]

theorem decodeVote_encodeVote (v : Vote) (h : v.wf) :
    decodeVote (encodeVote v) = some v := by
  obtain ⟨hs, ha, ht⟩ := h
  have hs' : v.signature.bytes.length = 64 := hs
  have ha' : v.author.bytes.length = 32 := ha
  have ht' : v.target.bytes.length = 32 := ht
  simp [decodeVote, encodeVote, List.append_assoc, takeBytes_exact,
    takeBytes_exact_nil, decodeVarint_encodeVarint, decodeVarint_encode_nil,
    hs', ha', ht']

theorem decodeTransfer_encodeTransfer (t : Transfer) (h : t.wf) :
    decodeTransfer (encodeTransfer t) = some t := by
  obtain ⟨hs, hsrc, hdst⟩ := h
  have hs' : t.signature.bytes.length = 64 := hs
  have hsrc' : t.source.bytes.length = 32 := hsrc
  have hdst' : t.destination.bytes.length = 32 := hdst
  simp [decodeTransfer, encodeTransfer, List.append_assoc, takeBytes_exact,
    takeBytes_exact_nil, decodeVarint_encodeVarint, decodeVarint_encode_nil,
    hs', hsrc', hdst']

/-- One RocksDB column family: an association list from key bytes to
value bytes.  `put` overwrites the binding in place; where iteration
order matters the bindings are first sorted by key under the default
bytewise comparator (see `kvSorted`). -/
abbrev KV := List (List Nat × List Nat)

/-- From `rocksdb put`: overwrite the existing binding for the key, or append
a new one. -/
def kvPut : KV → List Nat → List Nat → KV
  | [], k, v => [(k, v)]
  | (k', v') :: rest, k, v =>
    if k' = k then (k, v) :: rest else (k', v') :: kvPut rest k v

/-- From `rocksdb get`: the first binding for the key, if any. -/
def kvGet : KV → List Nat → Option (List Nat)
  | [], _ => none
  | (k', v') :: rest, k => if k' = k then some v' else kvGet rest k

/-- Strict bytewise lexicographic order on keys — RocksDB's default
comparator, which orders every column family here (none configures a
custom comparator). -/
def lexLt : List Nat → List Nat → Bool
  | [], [] => false
  | [], _ :: _ => true
  | _ :: _, [] => false
  | a :: as, b :: bs => if a < b then true else if b < a then false else lexLt as bs

/-- Insert one binding into a key-sorted column family view. -/
def kvInsertSorted (e : List Nat × List Nat) : KV → KV
  | [] => [e]
  | f :: rest => if lexLt e.1 f.1 then e :: f :: rest else f :: kvInsertSorted e rest

/-- The column family in RocksDB's iteration order: keys ascending under
the default bytewise comparator. -/
def kvSorted : KV → KV
  | [] => []
  | e :: rest => kvInsertSorted e (kvSorted rest)

/-- From `rocksdb prefix_iterator_cf`: the column families are opened
with default `Options` — no prefix extractor — so the
`set_prefix_same_as_start(true)` the rocksdb crate sets is a no-op and
the iterator simply seeks to the first key at or after the given bytes
and runs to the END of the column family, in ascending key order.  Keys
that do not start with the bytes are returned too. -/
def kvScanFromKey (kv : KV) (start : List Nat) : KV :=
  (kvSorted kv).filter (fun e => !(lexLt e.1 start))

/-- A column family is well-formed when its keys are pairwise distinct
(RocksDB guarantees this; in the model it is an invariant of `kvPut`). -/
def kvWF (kv : KV) : Prop := (kv.map Prod.fst).Nodup

/-- Number of rows stored under a given key. -/
def kvCountKey (kv : KV) (k : List Nat) : Nat :=
  (kv.filter (fun e => e.1 = k)).length

theorem kvGet_kvPut_self (kv : KV) (k v : List Nat) :
    kvGet (kvPut kv k v) k = some v := by
  induction kv with
  | nil => simp [kvPut, kvGet]
  | cons e rest ih =>
    obtain ⟨k', v'⟩ := e
    by_cases h : k' = k
    · simp [kvPut, h, kvGet]
    · simp [kvPut, h, kvGet, ih]

theorem kvGet_kvPut_ne (kv : KV) (kput kget vput : List Nat) (h : kput ≠ kget) :
    kvGet (kvPut kv kput vput) kget = kvGet kv kget := by
  induction kv with
  | nil => simp [kvPut, kvGet, h]
  | cons e rest ih =>
    obtain ⟨k0, v0⟩ := e
    by_cases h0 : k0 = kput
    · subst h0
      simp [kvPut, kvGet, h]
    · by_cases h1 : k0 = kget
      · subst h1
        simp [kvPut, kvGet, h0]
      · simp [kvPut, kvGet, h0, h1, ih]

/-- A `put` that rewrites an existing binding with the same value is a
no-op. -/
theorem kvPut_same (kv : KV) (k v : List Nat) (h : kvGet kv k = some v) :
    kvPut kv k v = kv := by
  induction kv with
  | nil => simp [kvGet] at h
  | cons e rest ih =>
    obtain ⟨k', v'⟩ := e
    by_cases h0 : k' = k
    · subst h0
      have hv : v' = v := by simpa [kvGet] using h
      simp [kvPut, hv]
    · have h1 : kvGet rest k = some v := by simpa [kvGet, h0] using h
      simp [kvPut, h0, ih h1]

/-- A binding observed by `get` is a member of the column family. -/
theorem kvGet_mem (kv : KV) (k v : List Nat) (h : kvGet kv k = some v) :
    (k, v) ∈ kv := by
  induction kv with
  | nil => simp [kvGet] at h
  | cons e rest ih =>
    obtain ⟨k', v'⟩ := e
    by_cases h0 : k' = k
    · subst h0
      have hv : v' = v := by simpa [kvGet] using h
      simp [hv]
    · have h1 : kvGet rest k = some v := by simpa [kvGet, h0] using h
      exact List.mem_cons_of_mem _ (ih h1)

/-- If `get` answers with a value and a later `put` either touches a
different key or writes that same value, `get` still answers with the
value. -/
theorem kvGet_kvPut_preserve (kv : KV) (k v k' v' : List Nat)
    (h : kvGet kv k = some v) (hcases : k' ≠ k ∨ v' = v) :
    kvGet (kvPut kv k' v') k = some v := by
  rcases hcases with hne | hv
  · rw [kvGet_kvPut_ne kv k' k v' hne]; exact h
  · by_cases he : k' = k
    · subst he; subst hv; exact kvGet_kvPut_self kv k' v'
    · rw [kvGet_kvPut_ne kv k' k v' he]; exact h

theorem kvPut_mem_keys (kv : KV) (k v x : List Nat) :
    x ∈ (kvPut kv k v).map Prod.fst ↔ x ∈ kv.map Prod.fst ∨ x = k := by
  induction kv with
  | nil => simp [kvPut]
  | cons e rest ih =>
    obtain ⟨k', v'⟩ := e
    by_cases h : k' = k
    · subst h
      simp [kvPut]
      tauto
    · simp [kvPut, h, ih]
      tauto

theorem kvWF_kvPut (kv : KV) (k v : List Nat) (h : kvWF kv) :
    kvWF (kvPut kv k v) := by
  induction kv with
  | nil => simp [kvPut, kvWF]
  | cons e rest ih =>
    obtain ⟨k', v'⟩ := e
    simp only [kvWF, List.map_cons, List.nodup_cons] at h
    obtain ⟨hk, hrest⟩ := h
    by_cases h0 : k' = k
    · subst h0
      have hput : kvPut ((k', v') :: rest) k' v = (k', v) :: rest := by
        simp [kvPut]
      rw [hput]
      simp only [kvWF, List.map_cons, List.nodup_cons]
      exact ⟨hk, hrest⟩
    · have hput : kvPut ((k', v') :: rest) k v = (k', v') :: kvPut rest k v := by
        simp [kvPut, h0]
      rw [hput]
      simp only [kvWF, List.map_cons, List.nodup_cons]
      refine ⟨?_, ih hrest⟩
      intro hmem
      rcases (kvPut_mem_keys rest k v k').1 hmem with hm | hm
      · exact hk hm
      · exact h0 hm

/-- In a well-formed column family there is exactly one row under any
key that `get` answers for. -/
theorem kvCountKey_eq_one (kv : KV) (k v : List Nat) (hwf : kvWF kv)
    (h : kvGet kv k = some v) : kvCountKey kv k = 1 := by
  induction kv with
  | nil => simp [kvGet] at h
  | cons e rest ih =>
    obtain ⟨k', v'⟩ := e
    simp only [kvWF, List.map_cons, List.nodup_cons] at hwf
    obtain ⟨hk, hrest⟩ := hwf
    by_cases h0 : k' = k
    · subst h0
      have hf : rest.filter (fun e => e.1 == k') = [] := by
        rw [List.filter_eq_nil_iff]
        intro e he
        have hmem : e.1 ∈ rest.map Prod.fst := List.mem_map_of_mem Prod.fst he
        simp only [beq_iff_eq]
        intro hek
        exact hk (by rwa [hek] at hmem)
      simp [kvCountKey, hf]
      intro a b hab hak
      exact hk (by simpa [hak] using List.mem_map_of_mem Prod.fst hab)
    · have h1 : kvGet rest k = some v := by simpa [kvGet, h0] using h
      have hc := ih hrest h1
      simp only [kvCountKey] at hc ⊢
      simp [h0, hc]

/-- From `store.rs`: the database.  The four named column families
(`VOTES_NS = "vote"`, `TRANSFERS_NS = "transfer"`,
`VOTES_INDEX_NS = "+votes"`, `TRANSFERS_INDEX_NS = "+transfers"`)
plus the default column family, which holds only the reserved
`LAST_KNOWN_BLOCK_KEY`. -/
structure Store where
  votesNs : KV
  transfersNs : KV
  votesIndexNs : KV
  transfersIndexNs : KV
  defaultNs : KV
deriving DecidableEq

/-- A freshly created store: every column family empty. -/
def emptyStore : Store := ⟨[], [], [], [], []⟩

/-- From `store.rs`: `LAST_KNOWN_BLOCK_KEY`, the two bytes 0x1b 0x11. -/
def lastKnownBlockKey : List Nat := [0x1b, 0x11]

/-- From `store.rs` `last_known_block`: read the reserved key from the
default column family and `postcard`-decode it as a `u64`; read or
decode failures yield `none`. -/
def Store.last_known_block (s : Store) : Option Nat :=
  match kvGet s.defaultNs lastKnownBlockKey with
  | none => none
  | some bytes =>
    match decodeVarint bytes with
    | none => none
    | some (block, _) => some block

/-- From `store.rs` `set_last_known_block`: store the `postcard` encoding of
the block under the reserved key. -/
def Store.set_last_known_block (s : Store) (block : Nat) : Store :=
  { s with defaultNs := kvPut s.defaultNs lastKnownBlockKey (encodeVarint block) }

/-- From `store.rs` `bump_last_known_block`: update the watermark only if the
new block index is strictly greater than the current one
(`last_known_block().unwrap_or(0)`). -/
def Store.bump_last_known_block (s : Store) (block_index : Nat) : Store :=
  if block_index > (s.last_known_block.getD 0) then
    s.set_last_known_block block_index
  else s

/-- From `store.rs` `associate`: write an index row
`{secondary_key bytes}{primary_key bytes} -> {primary_key bytes}` into
an index column family.  The Rust function serializes its two arguments
with `postcard`; here they arrive already encoded. -/
def associate (cf : KV) (secondary primary : List Nat) : KV :=
  kvPut cf (secondary ++ primary) primary

/-- From `store.rs` `save_vote`: bump the watermark, write the primary row
keyed by the encoded signature, then index by `block_index`, `target`
and `author` (in that order). -/
def Store.save_vote (s : Store) (v : Vote) : Store :=
  let s := s.bump_last_known_block v.block_index
  let s := { s with votesNs := kvPut s.votesNs (encodeSignature v.signature) (encodeVote v) }
  let cf := s.votesIndexNs
  let cf := associate cf (encodeVarint v.block_index) (encodeSignature v.signature)
  let cf := associate cf v.target.bytes (encodeSignature v.signature)
  let cf := associate cf v.author.bytes (encodeSignature v.signature)
  { s with votesIndexNs := cf }

/-- From `store.rs` `save_transfer`: bump the watermark, write the primary
row keyed by the encoded signature, then index by `block_index`,
`source`, `destination` and `lamports` (in that order). -/
def Store.save_transfer (s : Store) (t : Transfer) : Store :=
  let s := s.bump_last_known_block t.block_index
  let s := { s with transfersNs := kvPut s.transfersNs (encodeSignature t.signature) (encodeTransfer t) }
  let cf := s.transfersIndexNs
  let cf := associate cf (encodeVarint t.block_index) (encodeSignature t.signature)
  let cf := associate cf t.source.bytes (encodeSignature t.signature)
  let cf := associate cf t.destination.bytes (encodeSignature t.signature)
  let cf := associate cf (encodeVarint t.lamports) (encodeSignature t.signature)
  { s with transfersIndexNs := cf }

/-- From `store.rs` `find_vote`: point lookup in the vote primary namespace;
a missing row or undecodable bytes yield `None`. -/
def Store.find_vote (s : Store) (key : Signature) : Option Vote :=
  match kvGet s.votesNs (encodeSignature key) with
  | none => none
  | some bytes => decodeVote bytes

/-- From `store.rs` `find_transfer`: point lookup in the transfer primary
namespace. -/
def Store.find_transfer (s : Store) (key : Signature) : Option Transfer :=
  match kvGet s.transfersNs (encodeSignature key) with
  | none => none
  | some bytes => decodeTransfer bytes

/-- From `store.rs` `find_all_votes`: full iteration of the vote primary
namespace, skipping undecodable rows. -/
def Store.find_all_votes (s : Store) : List Vote :=
  s.votesNs.filterMap (fun e => decodeVote e.2)

/-- From `store.rs` `find_all_transfers`: full iteration of the transfer
primary namespace, skipping undecodable rows. -/
def Store.find_all_transfers (s : Store) : List Transfer :=
  s.transfersNs.filterMap (fun e => decodeTransfer e.2)

/-- From `store.rs` `find_votes_by_block_index`: seek the vote index
iterator to the encoded block index and iterate to the end of the
namespace (no prefix extractor is configured, see `kvScanFromKey`);
decode each row's value as a signature, resolve it through `find_vote`,
and skip rows that fail to decode or dangle. -/
def Store.find_votes_by_block_index (s : Store) (block_index : Nat) : List Vote :=
  (kvScanFromKey s.votesIndexNs (encodeVarint block_index)).filterMap
    (fun e =>
      match decodeSignature e.2 with
      | none => none
      | some key => s.find_vote key)

/-- From `store.rs` `find_transfers_by_block_index`: seek the transfer
index iterator to the encoded block index and iterate to the end of the
namespace (no prefix extractor is configured, see `kvScanFromKey`);
decode each row's value as a signature, resolve it through
`find_transfer`, and skip rows that fail to decode or dangle. -/
def Store.find_transfers_by_block_index (s : Store) (block_index : Nat) : List Transfer :=
  (kvScanFromKey s.transfersIndexNs (encodeVarint block_index)).filterMap
    (fun e =>
      match decodeSignature e.2 with
      | none => none
      | some key => s.find_transfer key)

/-- A store whose column families all have pairwise-distinct keys
(RocksDB guarantees this; `kvPut` preserves it). -/
def Store.WF (s : Store) : Prop :=
  kvWF s.votesNs ∧ kvWF s.transfersNs ∧ kvWF s.votesIndexNs
    ∧ kvWF s.transfersIndexNs ∧ kvWF s.defaultNs

theorem bump_votesNs (s : Store) (b : Nat) :
    (s.bump_last_known_block b).votesNs = s.votesNs := by
  unfold Store.bump_last_known_block Store.set_last_known_block
  split <;> rfl

theorem bump_transfersNs (s : Store) (b : Nat) :
    (s.bump_last_known_block b).transfersNs = s.transfersNs := by
  unfold Store.bump_last_known_block Store.set_last_known_block
  split <;> rfl

theorem bump_votesIndexNs (s : Store) (b : Nat) :
    (s.bump_last_known_block b).votesIndexNs = s.votesIndexNs := by
  unfold Store.bump_last_known_block Store.set_last_known_block
  split <;> rfl

theorem bump_transfersIndexNs (s : Store) (b : Nat) :
    (s.bump_last_known_block b).transfersIndexNs = s.transfersIndexNs := by
  unfold Store.bump_last_known_block Store.set_last_known_block
  split <;> rfl

theorem save_vote_votesNs (s : Store) (v : Vote) :
    (s.save_vote v).votesNs
      = kvPut s.votesNs (encodeSignature v.signature) (encodeVote v) := by
  unfold Store.save_vote
  simp [bump_votesNs]

theorem save_vote_votesIndexNs (s : Store) (v : Vote) :
    (s.save_vote v).votesIndexNs
      = associate (associate (associate s.votesIndexNs
          (encodeVarint v.block_index) (encodeSignature v.signature))
          v.target.bytes (encodeSignature v.signature))
          v.author.bytes (encodeSignature v.signature) := by
  unfold Store.save_vote
  simp [bump_votesIndexNs]

theorem save_vote_transfersNs (s : Store) (v : Vote) :
    (s.save_vote v).transfersNs = s.transfersNs := by
  unfold Store.save_vote
  simp [bump_transfersNs]

theorem save_vote_transfersIndexNs (s : Store) (v : Vote) :
    (s.save_vote v).transfersIndexNs = s.transfersIndexNs := by
  unfold Store.save_vote
  simp [bump_transfersIndexNs]

theorem save_vote_defaultNs (s : Store) (v : Vote) :
    (s.save_vote v).defaultNs = (s.bump_last_known_block v.block_index).defaultNs := rfl

theorem save_transfer_transfersNs (s : Store) (t : Transfer) :
    (s.save_transfer t).transfersNs
      = kvPut s.transfersNs (encodeSignature t.signature) (encodeTransfer t) := by
  unfold Store.save_transfer
  simp [bump_transfersNs]

theorem save_transfer_transfersIndexNs (s : Store) (t : Transfer) :
    (s.save_transfer t).transfersIndexNs
      = associate (associate (associate (associate s.transfersIndexNs
          (encodeVarint t.block_index) (encodeSignature t.signature))
          t.source.bytes (encodeSignature t.signature))
          t.destination.bytes (encodeSignature t.signature))
          (encodeVarint t.lamports) (encodeSignature t.signature) := by
  unfold Store.save_transfer
  simp [bump_transfersIndexNs]

theorem save_transfer_votesNs (s : Store) (t : Transfer) :
    (s.save_transfer t).votesNs = s.votesNs := by
  unfold Store.save_transfer
  simp [bump_votesNs]

theorem save_transfer_votesIndexNs (s : Store) (t : Transfer) :
    (s.save_transfer t).votesIndexNs = s.votesIndexNs := by
  unfold Store.save_transfer
  simp [bump_votesIndexNs]

theorem save_transfer_defaultNs (s : Store) (t : Transfer) :
    (s.save_transfer t).defaultNs = (s.bump_last_known_block t.block_index).defaultNs := rfl

theorem set_last_known_block_spec (s : Store) (b : Nat) :
    (s.set_last_known_block b).last_known_block = some b := by
  simp [Store.set_last_known_block, Store.last_known_block, kvGet_kvPut_self,
    decodeVarint_encode_nil]

/-- The watermark after a bump: raised when strictly above the current
value (absent read as 0), untouched otherwise. -/
theorem bump_last_known_block_spec (s : Store) (b : Nat) :
    (s.bump_last_known_block b).last_known_block =
      if b > s.last_known_block.getD 0 then some b else s.last_known_block := by
  unfold Store.bump_last_known_block
  split
  · rw [set_last_known_block_spec]
  · rfl

theorem save_vote_last_known_block (s : Store) (v : Vote) :
    (s.save_vote v).last_known_block =
      if v.block_index > s.last_known_block.getD 0 then some v.block_index
      else s.last_known_block := by
  have h : (s.save_vote v).last_known_block
      = (s.bump_last_known_block v.block_index).last_known_block := rfl
  rw [h, bump_last_known_block_spec]

theorem save_transfer_last_known_block (s : Store) (t : Transfer) :
    (s.save_transfer t).last_known_block =
      if t.block_index > s.last_known_block.getD 0 then some t.block_index
      else s.last_known_block := by
  have h : (s.save_transfer t).last_known_block
      = (s.bump_last_known_block t.block_index).last_known_block := rfl
  rw [h, bump_last_known_block_spec]

/-- Round-trip at the store level: a vote just saved is found under its
signature. -/
theorem find_vote_save_vote (s : Store) (v : Vote) (h : v.wf) :
    (s.save_vote v).find_vote v.signature = some v := by
  simp [Store.find_vote, save_vote_votesNs, kvGet_kvPut_self, decodeVote_encodeVote v h]

theorem find_transfer_save_transfer (s : Store) (t : Transfer) (h : t.wf) :
    (s.save_transfer t).find_transfer t.signature = some t := by
  simp [Store.find_transfer, save_transfer_transfersNs, kvGet_kvPut_self,
    decodeTransfer_encodeTransfer t h]

theorem Signature.bytes_ne (s1 s2 : Signature) (h : s1 ≠ s2) : s1.bytes ≠ s2.bytes := by
  intro hb
  apply h
  cases s1; cases s2; simp_all

/-- Two composite index keys with distinct same-width signature suffixes
differ, whatever the secondary parts are. -/
theorem sig_key_ne (sec sec' : List Nat) (s1 s2 : Signature)
    (h1 : s1.wf) (h2 : s2.wf) (hne : s1 ≠ s2) :
    sec ++ s1.bytes ≠ sec' ++ s2.bytes := by
  intro he
  have hlen : s1.bytes.length = s2.bytes.length := by
    rw [h1, h2]
  have := (List.append_inj' he hlen).2
  exact Signature.bytes_ne s1 s2 hne this

/-- Saving a vote leaves point lookups of other signatures unchanged. -/
theorem find_vote_save_vote_other (s : Store) (v : Vote) (key : Signature)
    (hne : v.signature ≠ key) :
    (s.save_vote v).find_vote key = s.find_vote key := by
  unfold Store.find_vote
  rw [save_vote_votesNs, kvGet_kvPut_ne]
  exact Signature.bytes_ne v.signature key hne

theorem find_transfer_save_transfer_other (s : Store) (t : Transfer) (key : Signature)
    (hne : t.signature ≠ key) :
    (s.save_transfer t).find_transfer key = s.find_transfer key := by
  unfold Store.find_transfer
  rw [save_transfer_transfersNs, kvGet_kvPut_ne]
  exact Signature.bytes_ne t.signature key hne

/-- After saving a vote, its block-index row is present in the vote
index namespace. -/
theorem save_vote_index_binding (s : Store) (v : Vote) :
    kvGet (s.save_vote v).votesIndexNs
      (encodeVarint v.block_index ++ encodeSignature v.signature)
      = some (encodeSignature v.signature) := by
  rw [save_vote_votesIndexNs]
  unfold associate
  apply kvGet_kvPut_preserve
  · apply kvGet_kvPut_preserve
    · exact kvGet_kvPut_self _ _ _
    · right; rfl
  · right; rfl

theorem save_transfer_index_binding (s : Store) (t : Transfer) :
    kvGet (s.save_transfer t).transfersIndexNs
      (encodeVarint t.block_index ++ encodeSignature t.signature)
      = some (encodeSignature t.signature) := by
  rw [save_transfer_transfersIndexNs]
  unfold associate
  apply kvGet_kvPut_preserve
  · apply kvGet_kvPut_preserve
    · apply kvGet_kvPut_preserve
      · exact kvGet_kvPut_self _ _ _
      · right; rfl
    · right; rfl
  · right; rfl

/-- Saving a vote with a different signature preserves any index row
keyed by another well-formed signature. -/
theorem save_vote_index_preserve (s : Store) (v : Vote) (sec : List Nat) (sig : Signature)
    (hv : v.signature.wf) (hs : sig.wf) (hne : v.signature ≠ sig)
    (h : kvGet s.votesIndexNs (sec ++ sig.bytes) = some sig.bytes) :
    kvGet (s.save_vote v).votesIndexNs (sec ++ sig.bytes) = some sig.bytes := by
  rw [save_vote_votesIndexNs]
  unfold associate
  apply kvGet_kvPut_preserve
  · apply kvGet_kvPut_preserve
    · apply kvGet_kvPut_preserve
      · exact h
      · left; exact sig_key_ne _ _ _ _ hv hs hne
    · left; exact sig_key_ne _ _ _ _ hv hs hne
  · left; exact sig_key_ne _ _ _ _ hv hs hne

theorem save_transfer_index_preserve (s : Store) (t : Transfer) (sec : List Nat) (sig : Signature)
    (ht : t.signature.wf) (hs : sig.wf) (hne : t.signature ≠ sig)
    (h : kvGet s.transfersIndexNs (sec ++ sig.bytes) = some sig.bytes) :
    kvGet (s.save_transfer t).transfersIndexNs (sec ++ sig.bytes) = some sig.bytes := by
  rw [save_transfer_transfersIndexNs]
  unfold associate
  apply kvGet_kvPut_preserve
  · apply kvGet_kvPut_preserve
    · apply kvGet_kvPut_preserve
      · apply kvGet_kvPut_preserve
        · exact h
        · left; exact sig_key_ne _ _ _ _ ht hs hne
      · left; exact sig_key_ne _ _ _ _ ht hs hne
    · left; exact sig_key_ne _ _ _ _ ht hs hne
  · left; exact sig_key_ne _ _ _ _ ht hs hne

theorem decodeSignature_self (sig : Signature) (h : sig.wf) :
    decodeSignature sig.bytes = some sig := by
  unfold decodeSignature
  rw [takeBytes_exact_nil 64 sig.bytes h]

/-- A key is never strictly below the bytes it extends: the seek point
of a scan keeps every key that starts with those bytes. -/
theorem lexLt_append_self (p s : List Nat) : lexLt (p ++ s) p = false := by
  induction p with
  | nil => cases s <;> rfl
  | cons a p ih => simp [lexLt, ih]

theorem kvInsertSorted_mem (e x : List Nat × List Nat) (l : KV) :
    x ∈ kvInsertSorted e l ↔ x = e ∨ x ∈ l := by
  induction l with
  | nil => simp [kvInsertSorted]
  | cons f rest ih =>
    by_cases h : lexLt e.1 f.1
    · simp [kvInsertSorted, h]
    · simp [kvInsertSorted, h, ih]
      tauto

theorem kvSorted_mem (x : List Nat × List Nat) (kv : KV) :
    x ∈ kvSorted kv ↔ x ∈ kv := by
  induction kv with
  | nil => simp [kvSorted]
  | cons e rest ih => simp [kvSorted, kvInsertSorted_mem, ih]

/-- If the vote index holds the block row for a resolvable vote, the
block-index scan returns that vote. -/
theorem mem_find_votes_by_block_index (s : Store) (v : Vote)
    (hswf : v.signature.wf)
    (hfv : s.find_vote v.signature = some v)
    (hidx : kvGet s.votesIndexNs
      (encodeVarint v.block_index ++ encodeSignature v.signature)
      = some (encodeSignature v.signature)) :
    v ∈ s.find_votes_by_block_index v.block_index := by
  unfold Store.find_votes_by_block_index
  apply List.mem_filterMap.2
  refine ⟨(encodeVarint v.block_index ++ encodeSignature v.signature,
    encodeSignature v.signature), ?_, ?_⟩
  · unfold kvScanFromKey
    apply List.mem_filter.2
    refine ⟨(kvSorted_mem _ _).2 (kvGet_mem _ _ _ hidx), ?_⟩
    simp [lexLt_append_self]
  · simp [encodeSignature, decodeSignature_self v.signature hswf, hfv]

theorem mem_find_transfers_by_block_index (s : Store) (t : Transfer)
    (hswf : t.signature.wf)
    (hft : s.find_transfer t.signature = some t)
    (hidx : kvGet s.transfersIndexNs
      (encodeVarint t.block_index ++ encodeSignature t.signature)
      = some (encodeSignature t.signature)) :
    t ∈ s.find_transfers_by_block_index t.block_index := by
  unfold Store.find_transfers_by_block_index
  apply List.mem_filterMap.2
  refine ⟨(encodeVarint t.block_index ++ encodeSignature t.signature,
    encodeSignature t.signature), ?_, ?_⟩
  · unfold kvScanFromKey
    apply List.mem_filter.2
    refine ⟨(kvSorted_mem _ _).2 (kvGet_mem _ _ _ hidx), ?_⟩
    simp [lexLt_append_self]
  · simp [encodeSignature, decodeSignature_self t.signature hswf, hft]

/-- Every record a block-index scan returns resolves through a primary
point lookup, so it also appears in the full primary scan (no record can
be fabricated by the index). -/
theorem find_votes_by_block_index_sound (s : Store) (b : Nat) (x : Vote)
    (h : x ∈ s.find_votes_by_block_index b) : x ∈ s.find_all_votes := by
  unfold Store.find_votes_by_block_index at h
  obtain ⟨e, _, he⟩ := List.mem_filterMap.1 h
  unfold Store.find_all_votes
  apply List.mem_filterMap.2
  cases hd : decodeSignature e.2 with
  | none => rw [hd] at he; cases he
  | some key =>
    rw [hd] at he
    have he2 : s.find_vote key = some x := he
    unfold Store.find_vote at he2
    cases hg : kvGet s.votesNs (encodeSignature key) with
    | none => rw [hg] at he2; cases he2
    | some bytes =>
      rw [hg] at he2
      exact ⟨(encodeSignature key, bytes), kvGet_mem _ _ _ hg, he2⟩

theorem find_transfers_by_block_index_sound (s : Store) (b : Nat) (x : Transfer)
    (h : x ∈ s.find_transfers_by_block_index b) : x ∈ s.find_all_transfers := by
  unfold Store.find_transfers_by_block_index at h
  obtain ⟨e, _, he⟩ := List.mem_filterMap.1 h
  unfold Store.find_all_transfers
  apply List.mem_filterMap.2
  cases hd : decodeSignature e.2 with
  | none => rw [hd] at he; cases he
  | some key =>
    rw [hd] at he
    have he2 : s.find_transfer key = some x := he
    unfold Store.find_transfer at he2
    cases hg : kvGet s.transfersNs (encodeSignature key) with
    | none => rw [hg] at he2; cases he2
    | some bytes =>
      rw [hg] at he2
      exact ⟨(encodeSignature key, bytes), kvGet_mem _ _ _ hg, he2⟩

/-- Committing a list of votes one by one (as the committer does). -/
def saveVotesList (s : Store) (vs : List Vote) : Store :=
  vs.foldl Store.save_vote s

/-- Committing a list of transfers one by one. -/
def saveTransfersList (s : Store) (ts : List Transfer) : Store :=
  ts.foldl Store.save_transfer s

/-- Both the primary row and the block-index row of a vote survive any
further sequence of vote saves with different signatures. -/
theorem saveVotesList_preserve (vs : List Vote) (s : Store) (v : Vote)
    (hvwf : v.signature.wf)
    (hwf : ∀ x ∈ vs, x.signature.wf)
    (hneq : ∀ x ∈ vs, x.signature ≠ v.signature)
    (hfv : s.find_vote v.signature = some v)
    (hidx : kvGet s.votesIndexNs
      (encodeVarint v.block_index ++ encodeSignature v.signature)
      = some (encodeSignature v.signature)) :
    (saveVotesList s vs).find_vote v.signature = some v ∧
    kvGet (saveVotesList s vs).votesIndexNs
      (encodeVarint v.block_index ++ encodeSignature v.signature)
      = some (encodeSignature v.signature) := by
  induction vs generalizing s with
  | nil => exact ⟨hfv, hidx⟩
  | cons x rest ih =>
    have hx : x.signature ≠ v.signature := hneq x (List.mem_cons_self x rest)
    apply ih (s.save_vote x)
    · intro y hy; exact hwf y (List.mem_cons_of_mem _ hy)
    · intro y hy; exact hneq y (List.mem_cons_of_mem _ hy)
    · rw [find_vote_save_vote_other s x v.signature hx]; exact hfv
    · exact save_vote_index_preserve s x _ v.signature
        (hwf x (List.mem_cons_self x rest)) hvwf hx hidx

theorem saveTransfersList_preserve (ts : List Transfer) (s : Store) (t : Transfer)
    (htwf : t.signature.wf)
    (hwf : ∀ x ∈ ts, x.signature.wf)
    (hneq : ∀ x ∈ ts, x.signature ≠ t.signature)
    (hft : s.find_transfer t.signature = some t)
    (hidx : kvGet s.transfersIndexNs
      (encodeVarint t.block_index ++ encodeSignature t.signature)
      = some (encodeSignature t.signature)) :
    (saveTransfersList s ts).find_transfer t.signature = some t ∧
    kvGet (saveTransfersList s ts).transfersIndexNs
      (encodeVarint t.block_index ++ encodeSignature t.signature)
      = some (encodeSignature t.signature) := by
  induction ts generalizing s with
  | nil => exact ⟨hft, hidx⟩
  | cons x rest ih =>
    have hx : x.signature ≠ t.signature := hneq x (List.mem_cons_self x rest)
    apply ih (s.save_transfer x)
    · intro y hy; exact hwf y (List.mem_cons_of_mem _ hy)
    · intro y hy; exact hneq y (List.mem_cons_of_mem _ hy)
    · rw [find_transfer_save_transfer_other s x t.signature hx]; exact hft
    · exact save_transfer_index_preserve s x _ t.signature
        (hwf x (List.mem_cons_self x rest)) htwf hx hidx

/-- Completeness of the block-index scan over a store built by saving a
list of votes with pairwise distinct signatures: every saved vote is
returned when queried with its own block index. -/
theorem saveVotesList_complete (vs : List Vote) (s0 : Store) (v : Vote)
    (hwf : ∀ x ∈ vs, x.wf)
    (hpair : vs.Pairwise (fun a b => a.signature ≠ b.signature))
    (hmem : v ∈ vs) :
    v ∈ (saveVotesList s0 vs).find_votes_by_block_index v.block_index := by
  induction vs generalizing s0 with
  | nil => cases hmem
  | cons x rest ih =>
    rcases List.mem_cons.1 hmem with hv | hv
    · subst hv
      have hxwf : v.wf := hwf v (List.mem_cons_self v rest)
      have hrest := (List.pairwise_cons.1 hpair).1
      have hpres := saveVotesList_preserve rest (s0.save_vote v) v hxwf.1
        (fun y hy => (hwf y (List.mem_cons_of_mem _ hy)).1)
        (fun y hy => (hrest y hy).symm)
        (find_vote_save_vote s0 v hxwf)
        (save_vote_index_binding s0 v)
      exact mem_find_votes_by_block_index _ v hxwf.1 hpres.1 hpres.2
    · exact ih (s0.save_vote x) (fun y hy => hwf y (List.mem_cons_of_mem _ hy))
        (List.pairwise_cons.1 hpair).2 hv

theorem saveTransfersList_complete (ts : List Transfer) (s0 : Store) (t : Transfer)
    (hwf : ∀ x ∈ ts, x.wf)
    (hpair : ts.Pairwise (fun a b => a.signature ≠ b.signature))
    (hmem : t ∈ ts) :
    t ∈ (saveTransfersList s0 ts).find_transfers_by_block_index t.block_index := by
  induction ts generalizing s0 with
  | nil => cases hmem
  | cons x rest ih =>
    rcases List.mem_cons.1 hmem with ht | ht
    · subst ht
      have hxwf : t.wf := hwf t (List.mem_cons_self t rest)
      have hrest := (List.pairwise_cons.1 hpair).1
      have hpres := saveTransfersList_preserve rest (s0.save_transfer t) t hxwf.1
        (fun y hy => (hwf y (List.mem_cons_of_mem _ hy)).1)
        (fun y hy => (hrest y hy).symm)
        (find_transfer_save_transfer s0 t hxwf)
        (save_transfer_index_binding s0 t)
      exact mem_find_transfers_by_block_index _ t hxwf.1 hpres.1 hpres.2
    · exact ih (s0.save_transfer x) (fun y hy => hwf y (List.mem_cons_of_mem _ hy))
        (List.pairwise_cons.1 hpair).2 ht

/-- From `result.rs` `Error`, restricted to the variants the modelled code
paths can produce (`NotFound` from the signature lookup handlers,
`SolanaClient` from propagated RPC failures). -/
inductive RpcError where
  | rpcResponseError (code : Int)
  | otherRpcError
deriving DecidableEq

/-- From `solana_client` `ClientErrorKind`, restricted to the shape the code
inspects. -/
inductive ClientErrorKind where
  | rpcError (e : RpcError)
  | otherKind
deriving DecidableEq

/-- From `solana_client` `ClientError` (only its `kind` is inspected). -/
structure ClientError where
  kind : ClientErrorKind
deriving DecidableEq

inductive Error where
  | notFound
  | solanaClient (e : ClientError)
deriving DecidableEq

/-- From `interface.rs` `Criteria`: the query-string filters of
`GET /votes` and `GET /transfers`.  The handlers parse the
`signature`/`to`/`from` strings with `from_str`; the model carries the
already-parsed values (a failed parse surfaces as a bad-request before
any of the behavior the claims describe). -/
structure Criteria where
  block : Option Nat
  signature : Option Signature
  toAddr : Option Pubkey
  fromAddr : Option Pubkey
deriving DecidableEq

/-- From `finding_votes.rs` `find_votes_with_block_index`: the store-level
block-index scan, re-filtered by the exact block index. -/
def find_votes_with_block_index (s : Store) (block_index : Nat) : List Vote :=
  (s.find_votes_by_block_index block_index).filter
    (fun x => x.block_index == block_index)

/-- From `finding_transfers.rs` `find_transfers_with_block_index`. -/
def find_transfers_with_block_index (s : Store) (block_index : Nat) : List Transfer :=
  (s.find_transfers_by_block_index block_index).filter
    (fun x => x.block_index == block_index)

/-- From `finding_votes.rs` `find_votes_with_signature`: point lookup,
`NotFound` when absent. -/
def find_votes_with_signature (s : Store) (signature : Signature) :
    Except Error (List Vote) :=
  match s.find_vote signature with
  | none => .error .notFound
  | some vote => .ok [vote]

/-- From `finding_transfers.rs` `find_transfers_with_signature`. -/
def find_transfers_with_signature (s : Store) (signature : Signature) :
    Except Error (List Transfer) :=
  match s.find_transfer signature with
  | none => .error .notFound
  | some transfer => .ok [transfer]

/-- From `finding_votes.rs` `find_votes_with_full_scan`: iterate every vote,
keeping those that pass each supplied filter (`block` against
`block_index`, `to` against `target`, `from` against `author`). -/
def find_votes_with_full_scan (s : Store) (block : Option Nat)
    (toAddr fromAddr : Option Pubkey) : List Vote :=
  s.find_all_votes.filter (fun vote =>
    (match block with | some b => vote.block_index == b | none => true) &&
    (match toAddr with | some a => vote.target == a | none => true) &&
    (match fromAddr with | some a => vote.author == a | none => true))

/-- From `finding_transfers.rs` `find_transfers_with_full_scan` (`to` against
`destination`, `from` against `source`). -/
def find_transfers_with_full_scan (s : Store) (block : Option Nat)
    (toAddr fromAddr : Option Pubkey) : List Transfer :=
  s.find_all_transfers.filter (fun transfer =>
    (match block with | some b => transfer.block_index == b | none => true) &&
    (match toAddr with | some a => transfer.destination == a | none => true) &&
    (match fromAddr with | some a => transfer.source == a | none => true))

/-- From `interface.rs` `get_votes`: dispatch on the supplied filters —
signature alone → point lookup; block alone → indexed lookup; anything
else → full scan, called with `filters.block`, `filters.to`,
`filters.from` (the signature, if also supplied, is not passed). -/
def get_votes (s : Store) (c : Criteria) : Except Error (List Vote) :=
  match c.signature, c.block, c.toAddr, c.fromAddr with
  | some sig, none, none, none => find_votes_with_signature s sig
  | none, some block, none, none => .ok (find_votes_with_block_index s block)
  | _, _, _, _ => .ok (find_votes_with_full_scan s c.block c.toAddr c.fromAddr)

/-- From `interface.rs` `get_transfers`: same dispatch for transfers. -/
def get_transfers (s : Store) (c : Criteria) : Except Error (List Transfer) :=
  match c.signature, c.block, c.toAddr, c.fromAddr with
  | some sig, none, none, none => find_transfers_with_signature s sig
  | none, some block, none, none => .ok (find_transfers_with_block_index s block)
  | _, _, _, _ => .ok (find_transfers_with_full_scan s c.block c.toAddr c.fromAddr)

/-- Modelled from the spec (claim C4's words): a vote "matches all
supplied filters" — including a supplied `signature` — with an absent
filter matching everything.  This is the specification-side predicate
to compare `get_votes` against. -/
def voteMatchesAllSuppliedFilters (c : Criteria) (v : Vote) : Bool :=
  (match c.signature with | some sig => v.signature == sig | none => true) &&
  (match c.block with | some b => v.block_index == b | none => true) &&
  (match c.toAddr with | some a => v.target == a | none => true) &&
  (match c.fromAddr with | some a => v.author == a | none => true)

/-- The exact-signature-alone pattern of the dispatch in
`interface.rs`. -/
def Criteria.isSignatureAlone (c : Criteria) : Prop :=
  c.signature.isSome = true ∧ c.block = none ∧ c.toAddr = none ∧ c.fromAddr = none

/-- The exact-block-alone pattern of the dispatch in `interface.rs`. -/
def Criteria.isBlockAlone (c : Criteria) : Prop :=
  c.signature = none ∧ c.block.isSome = true ∧ c.toAddr = none ∧ c.fromAddr = none

/-- The block payload returned by `get_block_with_config`
(`solana_transaction_status::UiConfirmedBlock`): the only field the
extractor reads is `transactions`, which may be absent.  The transaction
representation is kept abstract (`tau`); claim-level reasoning never
depends on it. -/
structure BlockData (tau : Type) where
  transactions : Option (List tau)

/-- From `extraction.rs`: the pattern
`ClientError { kind: RpcError(RpcResponseError { code: -32007, .. }), .. }`
— the "block not available" condition. -/
def isBlockNotAvailable (e : ClientError) : Bool :=
  match e.kind with
  | .rpcError (.rpcResponseError code) => code == -32007
  | _ => false

/-- From `extraction.rs` `extract_all_transactions_in_block`, with the two
network calls (`get_block_with_config`, `get_block_time`) supplied as
their results and the per-transaction decoding
(`extract_transactions`) as an oracle, since the claims only concern
the fetch-error handling around them.  The branch structure mirrors the
source: a "block not available" fetch error logs at info level and
returns `Ok`; any other fetch error logs at error level and likewise
returns `Ok` ("skipping"); a block-time failure propagates via `?`;
an absent transaction list is skipped. -/
def extract_all_transactions_in_block {tau : Type}
    (fetchBlock : Except ClientError (BlockData tau))
    (fetchBlockTime : Except ClientError Nat)
    (extractTransactions : Nat → Nat → List tau → Except Error (List Record))
    (block : Nat) : Except Error (List Record) :=
  match fetchBlock with
  | .error e =>
    if isBlockNotAvailable e then
      -- logged at info level: the block is missing, skipping
      .ok []
    else
      -- logged at error level: failed to get the block, skipping
      .ok []
  | .ok blockData =>
    match fetchBlockTime with
    | .error e => .error (.solanaClient e)
    | .ok blockTime =>
      match blockData.transactions with
      | none => .ok []
      | some txs => extractTransactions block blockTime txs

/-- From `extraction.rs` `do_extract_continuously`'s per-block loop, over an
oracle `blockOk` telling whether `extract_all_transactions_in_block`
returns `Ok` at each height and `cancelled` sampling the cancellation
token after each block.  The fuel only truncates the otherwise endless
loop; every claim constrains runs within the fuel.  Returns the final
`since_block` checkpoint and whether the attempt ended without error. -/
def doExtractLoop (blockOk : Nat → Bool) (cancelled : Nat → Bool) :
    Nat → Nat → Option Nat → Option Nat × Bool
  | 0, _, since => (since, true)
  | fuel + 1, next, since =>
    if blockOk next = false then (since, false)
    else if cancelled next then (since, true)
    else doExtractLoop blockOk cancelled fuel (next + 1) (some (next + 1))

/-- From `extraction.rs` `extract_continuously`'s retry loop.  One attempt of
`do_extract_continuously` is abstracted as `env attempt since`,
returning the updated `since_block` checkpoint and whether the attempt
returned `Ok`: the loop breaks on `Ok`, and otherwise retries while the
retry budget lasts (`retries > 3` breaks, so `retriesLeft` counts
`3 - retries`).  Returns the number of attempts made and the final
checkpoint. -/
def retryLoop (env : Nat → Option Nat → Option Nat × Bool) :
    Nat → Nat → Option Nat → Nat × Option Nat
  | attempt, 0, since =>
    -- the final permitted attempt: the loop breaks after it either way
    (attempt + 1, (env attempt since).1)
  | attempt, retriesLeft + 1, since =>
    match env attempt since with
    | (since2, true) => (attempt + 1, since2)
    | (since2, false) => retryLoop env (attempt + 1) retriesLeft since2

/-- From `extraction.rs` `extract_continuously`: `retries` starts at 0 and
the loop gives up when `retries > 3`, i.e. a budget of 3 retries after
the initial attempt. -/
def extract_continuously (env : Nat → Option Nat → Option Nat × Bool)
    (since : Option Nat) : Nat × Option Nat :=
  retryLoop env 0 3 since

/-- From `store.rs` `save_vote` with failure injection for the underlying
RocksDB `put` calls: `oks i` tells whether the `i`-th `put` executed by
this call succeeds.  On the first failing `put` the function returns
the state written so far and `false` (the Rust `?` operator).  The
write order is the source order: the watermark `put` (only when
bumping), the primary row, then the `block_index`, `target` and
`author` index rows. -/
def saveVoteWrites (s : Store) (v : Vote) (oks : Nat → Bool) (i : Nat) : Store × Bool :=
  if oks i then
    let s1 := { s with
      votesNs := kvPut s.votesNs (encodeSignature v.signature) (encodeVote v) }
    if oks (i + 1) then
      let s2 := { s1 with
        votesIndexNs := associate s1.votesIndexNs (encodeVarint v.block_index) (encodeSignature v.signature) }
      if oks (i + 2) then
        let s3 := { s2 with
          votesIndexNs := associate s2.votesIndexNs v.target.bytes (encodeSignature v.signature) }
        if oks (i + 3) then
          ({ s3 with
            votesIndexNs := associate s3.votesIndexNs v.author.bytes (encodeSignature v.signature) }, true)
        else (s3, false)
      else (s2, false)
    else (s1, false)
  else (s, false)

def Store.save_vote_with (s : Store) (v : Vote) (oks : Nat → Bool) : Store × Bool :=
  if v.block_index > s.last_known_block.getD 0 then
    if oks 0 then saveVoteWrites (s.set_last_known_block v.block_index) v oks 1
    else (s, false)
  else saveVoteWrites s v oks 0

/-- From `store.rs` `save_transfer` with the same failure injection; write
order: watermark (when bumping), primary row, `block_index`, `source`,
`destination`, `lamports` index rows. -/
def saveTransferWrites (s : Store) (t : Transfer) (oks : Nat → Bool) (i : Nat) :
    Store × Bool :=
  if oks i then
    let s1 := { s with
      transfersNs := kvPut s.transfersNs (encodeSignature t.signature) (encodeTransfer t) }
    if oks (i + 1) then
      let s2 := { s1 with
        transfersIndexNs := associate s1.transfersIndexNs (encodeVarint t.block_index) (encodeSignature t.signature) }
      if oks (i + 2) then
        let s3 := { s2 with
          transfersIndexNs := associate s2.transfersIndexNs t.source.bytes (encodeSignature t.signature) }
        if oks (i + 3) then
          let s4 := { s3 with
            transfersIndexNs := associate s3.transfersIndexNs t.destination.bytes (encodeSignature t.signature) }
          if oks (i + 4) then
            ({ s4 with
              transfersIndexNs := associate s4.transfersIndexNs (encodeVarint t.lamports) (encodeSignature t.signature) }, true)
          else (s4, false)
        else (s3, false)
      else (s2, false)
    else (s1, false)
  else (s, false)

def Store.save_transfer_with (s : Store) (t : Transfer) (oks : Nat → Bool) : Store × Bool :=
  if t.block_index > s.last_known_block.getD 0 then
    if oks 0 then saveTransferWrites (s.set_last_known_block t.block_index) t oks 1
    else (s, false)
  else saveTransferWrites s t oks 0

/-- With every `put` succeeding, the failure-injected save agrees with
the plain one. -/
theorem save_vote_with_all_ok (s : Store) (v : Vote) :
    s.save_vote_with v (fun _ => true) = (s.save_vote v, true) := by
  unfold Store.save_vote_with saveVoteWrites Store.save_vote Store.bump_last_known_block
  split <;> rfl

theorem save_transfer_with_all_ok (s : Store) (t : Transfer) :
    s.save_transfer_with t (fun _ => true) = (s.save_transfer t, true) := by
  unfold Store.save_transfer_with saveTransferWrites Store.save_transfer
    Store.bump_last_known_block
  split <;> rfl

/-- The primary and index writes never touch the default column family,
whichever of them fail. -/
theorem saveVoteWrites_defaultNs (s : Store) (v : Vote) (oks : Nat → Bool) (i : Nat) :
    ((saveVoteWrites s v oks i).1).defaultNs = s.defaultNs := by
  unfold saveVoteWrites
  split_ifs <;> rfl

theorem saveTransferWrites_defaultNs (s : Store) (t : Transfer) (oks : Nat → Bool) (i : Nat) :
    ((saveTransferWrites s t oks i).1).defaultNs = s.defaultNs := by
  unfold saveTransferWrites
  split_ifs <;> rfl

/-- The watermark only depends on the default column family. -/
theorem last_known_block_congr (s1 s2 : Store) (h : s1.defaultNs = s2.defaultNs) :
    s1.last_known_block = s2.last_known_block := by
  unfold Store.last_known_block
  rw [h]

theorem store_eq (s1 s2 : Store)
    (h1 : s1.votesNs = s2.votesNs) (h2 : s1.transfersNs = s2.transfersNs)
    (h3 : s1.votesIndexNs = s2.votesIndexNs)
    (h4 : s1.transfersIndexNs = s2.transfersIndexNs)
    (h5 : s1.defaultNs = s2.defaultNs) : s1 = s2 := by
  cases s1; cases s2; simp_all

theorem save_vote_index_binding_target (s : Store) (v : Vote) :
    kvGet (s.save_vote v).votesIndexNs
      (v.target.bytes ++ encodeSignature v.signature)
      = some (encodeSignature v.signature) := by
  rw [save_vote_votesIndexNs]
  unfold associate
  apply kvGet_kvPut_preserve
  · exact kvGet_kvPut_self _ _ _
  · right; rfl

theorem save_vote_index_binding_author (s : Store) (v : Vote) :
    kvGet (s.save_vote v).votesIndexNs
      (v.author.bytes ++ encodeSignature v.signature)
      = some (encodeSignature v.signature) := by
  rw [save_vote_votesIndexNs]
  unfold associate
  exact kvGet_kvPut_self _ _ _

theorem save_transfer_index_binding_source (s : Store) (t : Transfer) :
    kvGet (s.save_transfer t).transfersIndexNs
      (t.source.bytes ++ encodeSignature t.signature)
      = some (encodeSignature t.signature) := by
  rw [save_transfer_transfersIndexNs]
  unfold associate
  apply kvGet_kvPut_preserve
  · apply kvGet_kvPut_preserve
    · exact kvGet_kvPut_self _ _ _
    · right; rfl
  · right; rfl

theorem save_transfer_index_binding_destination (s : Store) (t : Transfer) :
    kvGet (s.save_transfer t).transfersIndexNs
      (t.destination.bytes ++ encodeSignature t.signature)
      = some (encodeSignature t.signature) := by
  rw [save_transfer_transfersIndexNs]
  unfold associate
  apply kvGet_kvPut_preserve
  · exact kvGet_kvPut_self _ _ _
  · right; rfl

theorem save_transfer_index_binding_lamports (s : Store) (t : Transfer) :
    kvGet (s.save_transfer t).transfersIndexNs
      (encodeVarint t.lamports ++ encodeSignature t.signature)
      = some (encodeSignature t.signature) := by
  rw [save_transfer_transfersIndexNs]
  unfold associate
  exact kvGet_kvPut_self _ _ _

/-- After a save the watermark is at least the record's block index. -/
theorem save_vote_watermark_ge (s : Store) (v : Vote) :
    v.block_index ≤ (s.save_vote v).last_known_block.getD 0 := by
  rw [save_vote_last_known_block]
  split
  · simp
  · omega

theorem save_transfer_watermark_ge (s : Store) (t : Transfer) :
    t.block_index ≤ (s.save_transfer t).last_known_block.getD 0 := by
  rw [save_transfer_last_known_block]
  split
  · simp
  · omega

/-- A bump with a block index not above the watermark is a no-op on the
whole store. -/
theorem bump_no_op (s : Store) (b : Nat) (h : b ≤ s.last_known_block.getD 0) :
    s.bump_last_known_block b = s := by
  unfold Store.bump_last_known_block
  split
  · omega
  · rfl

/-- Saving the same vote twice produces the same store as saving it
once: the second pass rewrites every row with identical bytes. -/
theorem save_vote_idem (s : Store) (v : Vote) :
    (s.save_vote v).save_vote v = s.save_vote v := by
  have hb : (s.save_vote v).bump_last_known_block v.block_index = s.save_vote v :=
    bump_no_op _ _ (save_vote_watermark_ge s v)
  apply store_eq
  · rw [save_vote_votesNs, save_vote_votesNs]
    exact kvPut_same _ _ _ (kvGet_kvPut_self _ _ _)
  · rw [save_vote_transfersNs, save_vote_transfersNs]
  · rw [save_vote_votesIndexNs ((s.save_vote v)) v]
    unfold associate
    rw [kvPut_same _ _ _ (save_vote_index_binding s v),
      kvPut_same _ _ _ (save_vote_index_binding_target s v),
      kvPut_same _ _ _ (save_vote_index_binding_author s v)]
  · rw [save_vote_transfersIndexNs, save_vote_transfersIndexNs]
  · rw [save_vote_defaultNs, hb]

theorem save_transfer_idem (s : Store) (t : Transfer) :
    (s.save_transfer t).save_transfer t = s.save_transfer t := by
  have hb : (s.save_transfer t).bump_last_known_block t.block_index = s.save_transfer t :=
    bump_no_op _ _ (save_transfer_watermark_ge s t)
  apply store_eq
  · rw [save_transfer_votesNs, save_transfer_votesNs]
  · rw [save_transfer_transfersNs, save_transfer_transfersNs]
    exact kvPut_same _ _ _ (kvGet_kvPut_self _ _ _)
  · rw [save_transfer_votesIndexNs, save_transfer_votesIndexNs]
  · rw [save_transfer_transfersIndexNs ((s.save_transfer t)) t]
    unfold associate
    rw [kvPut_same _ _ _ (save_transfer_index_binding s t),
      kvPut_same _ _ _ (save_transfer_index_binding_source s t),
      kvPut_same _ _ _ (save_transfer_index_binding_destination s t),
      kvPut_same _ _ _ (save_transfer_index_binding_lamports s t)]
  · rw [save_transfer_defaultNs, hb]

theorem bump_defaultNs_WF (s : Store) (b : Nat) (h : kvWF s.defaultNs) :
    kvWF (s.bump_last_known_block b).defaultNs := by
  unfold Store.bump_last_known_block Store.set_last_known_block
  split
  · exact kvWF_kvPut _ _ _ h
  · exact h

theorem save_vote_WF (s : Store) (v : Vote) (h : s.WF) : (s.save_vote v).WF := by
  obtain ⟨h1, h2, h3, h4, h5⟩ := h
  refine ⟨?_, ?_, ?_, ?_, ?_⟩
  · rw [save_vote_votesNs]; exact kvWF_kvPut _ _ _ h1
  · rw [save_vote_transfersNs]; exact h2
  · rw [save_vote_votesIndexNs]
    unfold associate
    exact kvWF_kvPut _ _ _ (kvWF_kvPut _ _ _ (kvWF_kvPut _ _ _ h3))
  · rw [save_vote_transfersIndexNs]; exact h4
  · rw [save_vote_defaultNs]; exact bump_defaultNs_WF s _ h5

theorem save_transfer_WF (s : Store) (t : Transfer) (h : s.WF) : (s.save_transfer t).WF := by
  obtain ⟨h1, h2, h3, h4, h5⟩ := h
  refine ⟨?_, ?_, ?_, ?_, ?_⟩
  · rw [save_transfer_votesNs]; exact h1
  · rw [save_transfer_transfersNs]; exact kvWF_kvPut _ _ _ h2
  · rw [save_transfer_votesIndexNs]; exact h3
  · rw [save_transfer_transfersIndexNs]
    unfold associate
    exact kvWF_kvPut _ _ _ (kvWF_kvPut _ _ _ (kvWF_kvPut _ _ _ (kvWF_kvPut _ _ _ h4)))
  · rw [save_transfer_defaultNs]; exact bump_defaultNs_WF s _ h5

/-! ## Claim theorems -/

/-- A fetch failure that is not the "block not available" condition. -/
def otherClientError : ClientError := ⟨.otherKind⟩

/-- C2, counterexample: a block fetch that fails with an error other
than the "block not available" RPC condition does NOT abort the
extraction loop — `extract_all_transactions_in_block` returns `Ok`
(emitting nothing) exactly as in the benign case, instead of
propagating the error as the claim states. -/
theorem c2_counterexample :
    @extract_all_transactions_in_block Unit
      (Except.error otherClientError) (Except.ok 0) (fun _ _ _ => Except.ok []) 42
      = Except.ok [] := rfl

/-- C2, amended: every `get_block_with_config` failure — the -32007
"block not available" RPC condition and any other error alike — is
logged and skipped, with the extractor emitting nothing and proceeding
to the next block; only a failure of the subsequent `get_block_time`
call propagates out of the per-block extraction (reaching the
orchestrator's retry policy). -/
theorem c2_fetch_error_handling {tau : Type} :
    (∀ (e : ClientError) (ft : Except ClientError Nat)
       (ex : Nat → Nat → List tau → Except Error (List Record)) (b : Nat),
      extract_all_transactions_in_block (Except.error e) ft ex b = Except.ok []) ∧
    (∀ (bd : BlockData tau) (e : ClientError)
       (ex : Nat → Nat → List tau → Except Error (List Record)) (b : Nat),
      extract_all_transactions_in_block (Except.ok bd) (Except.error e) ex b
        = Except.error (.solanaClient e)) := by
  constructor
  · intro e ft ex b
    show (if isBlockNotAvailable e then Except.ok [] else Except.ok [])
      = (Except.ok [] : Except Error (List Record))
    split <;> rfl
  · intro bd e ex b
    rfl

/-- A vote whose block index is zero. -/
def voteB0 : Vote :=
  ⟨⟨List.replicate 64 1⟩, 0, 5, ⟨List.replicate 32 2⟩, ⟨List.replicate 32 3⟩⟩

/-- C3, counterexample: saving a record with `block_index = 0` into an
empty store leaves `last_known_block` at `none`, not `some 0`: the bump
requires `block_index > last_known_block().unwrap_or(0)`, which fails
at zero.  The claim's "for every block_index B ... returns B" is false
at B = 0. -/
theorem c3_counterexample :
    voteB0.block_index = 0 ∧
    (emptyStore.save_vote voteB0).last_known_block = none := by
  exact ⟨rfl, rfl⟩

/-- C3, amended: on an empty store `last_known_block` is `none`; after
saving a record with `block_index = B` into an empty store the
watermark is `B` provided `B > 0` (at `B = 0` it stays `none`); saving
a record whose block index is at most the current watermark leaves the
watermark unchanged; and the watermark never decreases under any save
of either kind. -/
theorem c3_watermark_monotone :
    (emptyStore.last_known_block = none) ∧
    (∀ v : Vote, 0 < v.block_index →
      (emptyStore.save_vote v).last_known_block = some v.block_index) ∧
    (∀ t : Transfer, 0 < t.block_index →
      (emptyStore.save_transfer t).last_known_block = some t.block_index) ∧
    (∀ (s : Store) (v : Vote) (w : Nat), s.last_known_block = some w →
      v.block_index ≤ w → (s.save_vote v).last_known_block = some w) ∧
    (∀ (s : Store) (t : Transfer) (w : Nat), s.last_known_block = some w →
      t.block_index ≤ w → (s.save_transfer t).last_known_block = some w) ∧
    (∀ (s : Store) (v : Vote) (w : Nat), s.last_known_block = some w →
      ∃ w', (s.save_vote v).last_known_block = some w' ∧ w ≤ w') ∧
    (∀ (s : Store) (t : Transfer) (w : Nat), s.last_known_block = some w →
      ∃ w', (s.save_transfer t).last_known_block = some w' ∧ w ≤ w') := by
  have hEmpty : emptyStore.last_known_block = none := rfl
  refine ⟨hEmpty, ?_, ?_, ?_, ?_, ?_, ?_⟩
  · intro v hv
    rw [save_vote_last_known_block, hEmpty, if_pos (by simpa using hv)]
  · intro t ht
    rw [save_transfer_last_known_block, hEmpty, if_pos (by simpa using ht)]
  · intro s v w hw hle
    rw [save_vote_last_known_block, hw]
    rw [if_neg (by simp; omega)]
  · intro s t w hw hle
    rw [save_transfer_last_known_block, hw]
    rw [if_neg (by simp; omega)]
  · intro s v w hw
    rw [save_vote_last_known_block, hw]
    by_cases h : v.block_index > w
    · exact ⟨v.block_index, by rw [if_pos (by simpa using h)], by omega⟩
    · exact ⟨w, by rw [if_neg (by simp; omega)], le_rfl⟩
  · intro s t w hw
    rw [save_transfer_last_known_block, hw]
    by_cases h : t.block_index > w
    · exact ⟨t.block_index, by rw [if_pos (by simpa using h)], by omega⟩
    · exact ⟨w, by rw [if_neg (by simp; omega)], le_rfl⟩

/-- A vote at block 9 and another at block 4, for exercising the
amended C3 statement. -/
def voteB9 : Vote :=
  ⟨⟨List.replicate 64 1⟩, 9, 5, ⟨List.replicate 32 2⟩, ⟨List.replicate 32 3⟩⟩

def voteB4 : Vote :=
  ⟨⟨List.replicate 64 4⟩, 4, 6, ⟨List.replicate 32 7⟩, ⟨List.replicate 32 8⟩⟩

theorem c3_watermark_monotone_witness :
    (emptyStore.save_vote voteB9).last_known_block = some voteB9.block_index ∧
    ((emptyStore.save_vote voteB9).save_vote voteB4).last_known_block = some 9 :=
  ⟨c3_watermark_monotone.2.1 voteB9 (by decide),
   c3_watermark_monotone.2.2.2.1 (emptyStore.save_vote voteB9) voteB4 9
     (by decide) (by decide)⟩

/-- C6: saving a vote (resp. transfer) and looking it up by its
signature returns an equal value. -/
theorem c6_save_find_roundtrip (s : Store) (v : Vote) (t : Transfer)
    (hv : v.wf) (ht : t.wf) :
    (s.save_vote v).find_vote v.signature = some v ∧
    (s.save_transfer t).find_transfer t.signature = some t :=
  ⟨find_vote_save_vote s v hv, find_transfer_save_transfer s t ht⟩

def voteC6 : Vote :=
  ⟨⟨List.replicate 64 11⟩, 7, 5, ⟨List.replicate 32 12⟩, ⟨List.replicate 32 13⟩⟩

def transferC6 : Transfer :=
  ⟨⟨List.replicate 64 14⟩, 7, 5, ⟨List.replicate 32 15⟩, ⟨List.replicate 32 16⟩, 21⟩

theorem c6_save_find_roundtrip_witness :
    (emptyStore.save_vote voteC6).find_vote voteC6.signature = some voteC6 ∧
    (emptyStore.save_transfer transferC6).find_transfer transferC6.signature
      = some transferC6 :=
  c6_save_find_roundtrip emptyStore voteC6 transferC6 (by decide) (by decide)

/-- C9: every record returned by the block-filtered query handlers
(`find_votes_with_block_index`, `find_transfers_with_block_index`) has
`block_index` exactly the queried value — the handlers re-filter the
store-level scan results, so index false positives never reach the API
response. -/
theorem c9_block_filter_exact :
    (∀ (s : Store) (b : Nat) (x : Vote),
      x ∈ find_votes_with_block_index s b → x.block_index = b) ∧
    (∀ (s : Store) (b : Nat) (x : Transfer),
      x ∈ find_transfers_with_block_index s b → x.block_index = b) := by
  constructor
  · intro s b x hx
    have := (List.mem_filter.1 hx).2
    simpa using this
  · intro s b x hx
    have := (List.mem_filter.1 hx).2
    simpa using this

def voteC9 : Vote :=
  ⟨⟨List.replicate 64 17⟩, 7, 5, ⟨List.replicate 32 18⟩, ⟨List.replicate 32 19⟩⟩

def transferC9 : Transfer :=
  ⟨⟨List.replicate 64 20⟩, 7, 5, ⟨List.replicate 32 21⟩, ⟨List.replicate 32 22⟩, 23⟩

theorem c9_block_filter_exact_witness :
    voteC9.block_index = 7 ∧ transferC9.block_index = 7 :=
  ⟨c9_block_filter_exact.1 (emptyStore.save_vote voteC9) 7 voteC9 (by decide),
   c9_block_filter_exact.2 (emptyStore.save_transfer transferC9) 7 transferC9 (by decide)⟩

/-- C5: saving the same record twice leaves the very same store as
saving it once (so no duplicate rows of any kind), and on a well-formed
store the saved record owns exactly one primary row under its signature
and exactly one index row under each indexed-field key — every index
key being the deterministic concatenation of the encoded secondary key
and the encoded signature. -/
theorem c5_idempotent_upsert (s : Store) (v : Vote) (t : Transfer) (hWF : s.WF) :
    ((s.save_vote v).save_vote v = s.save_vote v) ∧
    ((s.save_transfer t).save_transfer t = s.save_transfer t) ∧
    kvCountKey ((s.save_vote v).save_vote v).votesNs (encodeSignature v.signature) = 1 ∧
    kvCountKey ((s.save_vote v).save_vote v).votesIndexNs
      (encodeVarint v.block_index ++ encodeSignature v.signature) = 1 ∧
    kvCountKey ((s.save_vote v).save_vote v).votesIndexNs
      (v.target.bytes ++ encodeSignature v.signature) = 1 ∧
    kvCountKey ((s.save_vote v).save_vote v).votesIndexNs
      (v.author.bytes ++ encodeSignature v.signature) = 1 ∧
    kvCountKey ((s.save_transfer t).save_transfer t).transfersNs
      (encodeSignature t.signature) = 1 ∧
    kvCountKey ((s.save_transfer t).save_transfer t).transfersIndexNs
      (encodeVarint t.block_index ++ encodeSignature t.signature) = 1 ∧
    kvCountKey ((s.save_transfer t).save_transfer t).transfersIndexNs
      (t.source.bytes ++ encodeSignature t.signature) = 1 ∧
    kvCountKey ((s.save_transfer t).save_transfer t).transfersIndexNs
      (t.destination.bytes ++ encodeSignature t.signature) = 1 ∧
    kvCountKey ((s.save_transfer t).save_transfer t).transfersIndexNs
      (encodeVarint t.lamports ++ encodeSignature t.signature) = 1 := by
  obtain ⟨hv1, hv2, hv3, hv4, hv5⟩ := save_vote_WF s v hWF
  obtain ⟨ht1, ht2, ht3, ht4, ht5⟩ := save_transfer_WF s t hWF
  refine ⟨save_vote_idem s v, save_transfer_idem s t, ?_, ?_, ?_, ?_, ?_, ?_, ?_, ?_, ?_⟩
  · rw [save_vote_idem]
    exact kvCountKey_eq_one _ _ (encodeVote v) hv1
      (by rw [save_vote_votesNs]; exact kvGet_kvPut_self _ _ _)
  · rw [save_vote_idem]
    exact kvCountKey_eq_one _ _ (encodeSignature v.signature) hv3
      (save_vote_index_binding s v)
  · rw [save_vote_idem]
    exact kvCountKey_eq_one _ _ (encodeSignature v.signature) hv3
      (save_vote_index_binding_target s v)
  · rw [save_vote_idem]
    exact kvCountKey_eq_one _ _ (encodeSignature v.signature) hv3
      (save_vote_index_binding_author s v)
  · rw [save_transfer_idem]
    exact kvCountKey_eq_one _ _ (encodeTransfer t) ht2
      (by rw [save_transfer_transfersNs]; exact kvGet_kvPut_self _ _ _)
  · rw [save_transfer_idem]
    exact kvCountKey_eq_one _ _ (encodeSignature t.signature) ht4
      (save_transfer_index_binding s t)
  · rw [save_transfer_idem]
    exact kvCountKey_eq_one _ _ (encodeSignature t.signature) ht4
      (save_transfer_index_binding_source s t)
  · rw [save_transfer_idem]
    exact kvCountKey_eq_one _ _ (encodeSignature t.signature) ht4
      (save_transfer_index_binding_destination s t)
  · rw [save_transfer_idem]
    exact kvCountKey_eq_one _ _ (encodeSignature t.signature) ht4
      (save_transfer_index_binding_lamports s t)

instance : DecidablePred Store.WF := fun s => by
  unfold Store.WF kvWF; infer_instance

def voteC5 : Vote :=
  ⟨⟨List.replicate 64 24⟩, 7, 5, ⟨List.replicate 32 25⟩, ⟨List.replicate 32 26⟩⟩

def transferC5 : Transfer :=
  ⟨⟨List.replicate 64 27⟩, 7, 5, ⟨List.replicate 32 28⟩, ⟨List.replicate 32 29⟩, 30⟩

theorem c5_idempotent_upsert_witness :
    ((emptyStore.save_vote voteC5).save_vote voteC5 = emptyStore.save_vote voteC5) ∧
    kvCountKey ((emptyStore.save_vote voteC5).save_vote voteC5).votesNs
      (encodeSignature voteC5.signature) = 1 ∧
    kvCountKey ((emptyStore.save_transfer transferC5).save_transfer transferC5).transfersIndexNs
      (encodeVarint transferC5.lamports ++ encodeSignature transferC5.signature) = 1 :=
  ⟨(c5_idempotent_upsert emptyStore voteC5 transferC5 (by decide)).1,
   (c5_idempotent_upsert emptyStore voteC5 transferC5 (by decide)).2.2.1,
   (c5_idempotent_upsert emptyStore voteC5 transferC5 (by decide)).2.2.2.2.2.2.2.2.2.2⟩

/-- Saving a transfer never changes what vote point lookups see, and
conversely. -/
theorem find_vote_save_transfer (s : Store) (t : Transfer) (key : Signature) :
    (s.save_transfer t).find_vote key = s.find_vote key := by
  unfold Store.find_vote
  rw [save_transfer_votesNs]

theorem find_transfer_save_vote (s : Store) (v : Vote) (key : Signature) :
    (s.save_vote v).find_transfer key = s.find_transfer key := by
  unfold Store.find_transfer
  rw [save_vote_transfersNs]

/-- C7: a vote and a transfer sharing one signature, saved into an
empty store, stay fully isolated: the full scans of each kind return
exactly the record of that kind, and the point lookups of each kind
return only their own record. -/
theorem c7_kind_isolation (v : Vote) (t : Transfer)
    (hv : v.wf) (ht : t.wf) (_hsig : t.signature = v.signature) :
    ((emptyStore.save_vote v).save_transfer t).find_all_votes = [v] ∧
    ((emptyStore.save_vote v).save_transfer t).find_all_transfers = [t] ∧
    ((emptyStore.save_vote v).save_transfer t).find_vote v.signature = some v ∧
    ((emptyStore.save_vote v).save_transfer t).find_transfer t.signature = some t := by
  refine ⟨?_, ?_, ?_, ?_⟩
  · unfold Store.find_all_votes
    rw [save_transfer_votesNs, save_vote_votesNs]
    simp [emptyStore, kvPut, decodeVote_encodeVote v hv]
  · unfold Store.find_all_transfers
    rw [save_transfer_transfersNs, save_vote_transfersNs]
    simp [emptyStore, kvPut, decodeTransfer_encodeTransfer t ht]
  · rw [find_vote_save_transfer]
    exact find_vote_save_vote emptyStore v hv
  · exact find_transfer_save_transfer _ t ht

def voteC7 : Vote :=
  ⟨⟨List.replicate 64 31⟩, 7, 5, ⟨List.replicate 32 32⟩, ⟨List.replicate 32 33⟩⟩

def transferC7 : Transfer :=
  ⟨⟨List.replicate 64 31⟩, 8, 6, ⟨List.replicate 32 34⟩, ⟨List.replicate 32 35⟩, 36⟩

theorem c7_kind_isolation_witness :
    ((emptyStore.save_vote voteC7).save_transfer transferC7).find_all_votes = [voteC7] ∧
    ((emptyStore.save_vote voteC7).save_transfer transferC7).find_all_transfers
      = [transferC7] ∧
    ((emptyStore.save_vote voteC7).save_transfer transferC7).find_vote voteC7.signature
      = some voteC7 ∧
    ((emptyStore.save_vote voteC7).save_transfer transferC7).find_transfer
      transferC7.signature = some transferC7 :=
  c7_kind_isolation voteC7 transferC7 (by decide) (by decide) (by decide)

/-- C10: `save_vote` / `save_transfer` advance the watermark before any
primary or index write, so when the watermark write succeeded and a
later write fails (the save returning an error), the watermark keeps
the advanced value — the save is not atomic with respect to the
watermark.  With every write succeeding, the failure-injected saves
coincide with the plain ones. -/
theorem c10_watermark_not_atomic :
    (∀ (s : Store) (v : Vote) (oks : Nat → Bool),
      v.block_index > s.last_known_block.getD 0 → oks 0 = true →
      (s.save_vote_with v oks).2 = false →
      ((s.save_vote_with v oks).1).last_known_block = some v.block_index) ∧
    (∀ (s : Store) (t : Transfer) (oks : Nat → Bool),
      t.block_index > s.last_known_block.getD 0 → oks 0 = true →
      (s.save_transfer_with t oks).2 = false →
      ((s.save_transfer_with t oks).1).last_known_block = some t.block_index) ∧
    (∀ (s : Store) (v : Vote), s.save_vote_with v (fun _ => true) = (s.save_vote v, true)) ∧
    (∀ (s : Store) (t : Transfer),
      s.save_transfer_with t (fun _ => true) = (s.save_transfer t, true)) := by
  refine ⟨?_, ?_, save_vote_with_all_ok, save_transfer_with_all_ok⟩
  · intro s v oks hgt hok _
    unfold Store.save_vote_with
    rw [if_pos hgt, if_pos hok]
    rw [last_known_block_congr _ (s.set_last_known_block v.block_index)
      (saveVoteWrites_defaultNs _ _ _ _)]
    exact set_last_known_block_spec s v.block_index
  · intro s t oks hgt hok _
    unfold Store.save_transfer_with
    rw [if_pos hgt, if_pos hok]
    rw [last_known_block_congr _ (s.set_last_known_block t.block_index)
      (saveTransferWrites_defaultNs _ _ _ _)]
    exact set_last_known_block_spec s t.block_index

def voteC10 : Vote :=
  ⟨⟨List.replicate 64 37⟩, 7, 5, ⟨List.replicate 32 38⟩, ⟨List.replicate 32 39⟩⟩

def transferC10 : Transfer :=
  ⟨⟨List.replicate 64 40⟩, 9, 6, ⟨List.replicate 32 41⟩, ⟨List.replicate 32 42⟩, 43⟩

/-- The watermark write succeeds and the very next (primary) write
fails. -/
def oksFirstOnly : Nat → Bool := fun i => i == 0

theorem c10_watermark_not_atomic_witness :
    ((emptyStore.save_vote_with voteC10 oksFirstOnly).1).last_known_block = some 7 ∧
    ((emptyStore.save_transfer_with transferC10 oksFirstOnly).1).last_known_block
      = some 9 :=
  ⟨c10_watermark_not_atomic.1 emptyStore voteC10 oksFirstOnly
      (by decide) (by decide) (by decide),
   c10_watermark_not_atomic.2.1 emptyStore transferC10 oksFirstOnly
      (by decide) (by decide) (by decide)⟩

def voteC4 : Vote :=
  ⟨⟨List.replicate 64 44⟩, 7, 5, ⟨List.replicate 32 45⟩, ⟨List.replicate 32 46⟩⟩

/-- A query carrying both a signature (that matches nothing stored) and
a block filter. -/
def criteriaC4 : Criteria :=
  { block := some 7, signature := some ⟨List.replicate 64 47⟩,
    toAddr := none, fromAddr := none }

/-- C4, counterexample: with `signature` supplied together with
`block`, the dispatch takes the full-scan branch but never passes the
signature to it: the stored vote is returned even though it fails the
supplied signature filter, contradicting "a record is returned iff it
matches all supplied filters". -/
theorem c4_counterexample :
    get_votes (emptyStore.save_vote voteC4) criteriaC4 = Except.ok [voteC4] ∧
    voteMatchesAllSuppliedFilters criteriaC4 voteC4 = false := by
  constructor
  · rfl
  · decide

/-- C4, amended: for every query that is not exactly signature-alone
and not exactly block-alone, the handlers run a full scan with the
supplied `block`, `to` and `from` filters applied conjunctively (an
absent filter matching everything) — but a supplied `signature` is
ignored in this branch, as it is not passed to the full scan. -/
theorem c4_full_scan_filters :
    (∀ (s : Store) (c : Criteria), ¬ c.isSignatureAlone → ¬ c.isBlockAlone →
      get_votes s c = Except.ok (find_votes_with_full_scan s c.block c.toAddr c.fromAddr)) ∧
    (∀ (s : Store) (c : Criteria), ¬ c.isSignatureAlone → ¬ c.isBlockAlone →
      get_transfers s c
        = Except.ok (find_transfers_with_full_scan s c.block c.toAddr c.fromAddr)) ∧
    (∀ (s : Store) (b : Option Nat) (toA fr : Option Pubkey) (x : Vote),
      x ∈ find_votes_with_full_scan s b toA fr ↔
        x ∈ s.find_all_votes ∧ (∀ bb, b = some bb → x.block_index = bb)
          ∧ (∀ a, toA = some a → x.target = a) ∧ (∀ a, fr = some a → x.author = a)) ∧
    (∀ (s : Store) (b : Option Nat) (toA fr : Option Pubkey) (x : Transfer),
      x ∈ find_transfers_with_full_scan s b toA fr ↔
        x ∈ s.find_all_transfers ∧ (∀ bb, b = some bb → x.block_index = bb)
          ∧ (∀ a, toA = some a → x.destination = a) ∧ (∀ a, fr = some a → x.source = a)) := by
  refine ⟨?_, ?_, ?_, ?_⟩
  · intro s c h1 h2
    obtain ⟨cb, cs, ct, cf⟩ := c
    cases cs <;> cases cb <;> cases ct <;> cases cf <;>
      first
        | rfl
        | (exfalso; simp_all [Criteria.isSignatureAlone, Criteria.isBlockAlone])
  · intro s c h1 h2
    obtain ⟨cb, cs, ct, cf⟩ := c
    cases cs <;> cases cb <;> cases ct <;> cases cf <;>
      first
        | rfl
        | (exfalso; simp_all [Criteria.isSignatureAlone, Criteria.isBlockAlone])
  · intro s b toA fr x
    unfold find_votes_with_full_scan
    rw [List.mem_filter]
    cases b <;> cases toA <;> cases fr <;> simp [and_assoc]
  · intro s b toA fr x
    unfold find_transfers_with_full_scan
    rw [List.mem_filter]
    cases b <;> cases toA <;> cases fr <;> simp [and_assoc]

instance : DecidablePred Criteria.isSignatureAlone := fun c => by
  unfold Criteria.isSignatureAlone; infer_instance

instance : DecidablePred Criteria.isBlockAlone := fun c => by
  unfold Criteria.isBlockAlone; infer_instance

theorem c4_full_scan_filters_witness :
    get_votes (emptyStore.save_vote voteC4) criteriaC4
      = Except.ok (find_votes_with_full_scan (emptyStore.save_vote voteC4)
          criteriaC4.block criteriaC4.toAddr criteriaC4.fromAddr) ∧
    voteC4 ∈ find_votes_with_full_scan (emptyStore.save_vote voteC4) (some 7) none none :=
  ⟨c4_full_scan_filters.1 (emptyStore.save_vote voteC4) criteriaC4 (by decide) (by decide),
   (c4_full_scan_filters.2.2.1 (emptyStore.save_vote voteC4) (some 7) none none voteC4).2
     (by refine ⟨by decide, ?_, ?_, ?_⟩
         · intro bb hbb
           cases hbb
           rfl
         · intro a ha
           cases ha
         · intro a ha
           cases ha)⟩

theorem retryLoop_attempts_le (env : Nat → Option Nat → Option Nat × Bool) :
    ∀ (r attempt : Nat) (since : Option Nat),
      (retryLoop env attempt r since).1 ≤ attempt + r + 1 := by
  intro r
  induction r with
  | zero =>
    intro attempt since
    simp [retryLoop]
  | succ r ih =>
    intro attempt since
    unfold retryLoop
    rcases h : env attempt since with ⟨s2, ok⟩
    cases ok
    · have := ih (attempt + 1) s2
      simp only [h]
      omega
    · simp only [h]
      omega

theorem retryLoop_all_fail (env : Nat → Option Nat → Option Nat × Bool)
    (hfail : ∀ a s, (env a s).2 = false) :
    ∀ (r attempt : Nat) (since : Option Nat),
      (retryLoop env attempt r since).1 = attempt + r + 1 := by
  intro r
  induction r with
  | zero =>
    intro attempt since
    simp [retryLoop]
  | succ r ih =>
    intro attempt since
    unfold retryLoop
    rcases h : env attempt since with ⟨s2, ok⟩
    have hf := hfail attempt since
    rw [h] at hf
    simp only at hf
    subst hf
    simp only [h]
    rw [ih (attempt + 1) s2]
    omega

theorem doExtractLoop_checkpoint (blockOk cancelled : Nat → Bool) :
    ∀ (k fuel start : Nat) (since : Option Nat),
      (∀ i, i < k → blockOk (start + i) = true ∧ cancelled (start + i) = false) →
      blockOk (start + k) = false → k < fuel →
      doExtractLoop blockOk cancelled fuel start since
        = (if k = 0 then since else some (start + k), false) := by
  intro k
  induction k with
  | zero =>
    intro fuel start since hok hfail hfuel
    match fuel, hfuel with
    | f + 1, _ =>
      unfold doExtractLoop
      rw [if_pos (by simpa using hfail)]
      simp
  | succ k ih =>
    intro fuel start since hok hfail hfuel
    match fuel, hfuel with
    | f + 1, hf =>
      unfold doExtractLoop
      have h0 := hok 0 (Nat.succ_pos k)
      rw [if_neg (by simp [Nat.add_zero] at h0; simp [h0.1]),
        if_neg (by simp [Nat.add_zero] at h0; simp [h0.2])]
      have hok' : ∀ i, i < k → blockOk (start + 1 + i) = true
          ∧ cancelled (start + 1 + i) = false := by
        intro i hi
        have := hok (i + 1) (by omega)
        rwa [show start + (i + 1) = start + 1 + i by omega] at this
      have hfail' : blockOk (start + 1 + k) = false := by
        rwa [show start + (k + 1) = start + 1 + k by omega] at hfail
      rw [ih f (start + 1) (some (start + 1)) hok' hfail' (by omega)]
      by_cases hk : k = 0
      · subst hk; simp
      · simp only [hk, if_false, Nat.succ_ne_zero]
        rw [show start + 1 + k = start + (k + 1) by omega]

/-- C8: the top-level retry loop makes at most 4 attempts (the initial
one plus 3 retries) for any behavior of the inner extraction, and
exactly 4 when every attempt fails, stopping (returning) rather than
crashing; after a failed attempt the loop re-runs the extraction with
the `since_block` checkpoint that attempt left behind, not the original
starting cursor; and the inner per-block loop leaves the checkpoint at
the first unprocessed block when a block fails after `k` successful
ones. -/
theorem c8_bounded_retry :
    (∀ (env : Nat → Option Nat → Option Nat × Bool) (since : Option Nat),
      (extract_continuously env since).1 ≤ 4) ∧
    (∀ (env : Nat → Option Nat → Option Nat × Bool) (since : Option Nat),
      (∀ a s, (env a s).2 = false) → (extract_continuously env since).1 = 4) ∧
    (∀ (env : Nat → Option Nat → Option Nat × Bool) (attempt k : Nat)
       (since since2 : Option Nat),
      env attempt since = (since2, false) →
      retryLoop env attempt (k + 1) since = retryLoop env (attempt + 1) k since2) ∧
    (∀ (blockOk cancelled : Nat → Bool) (k fuel start : Nat) (since : Option Nat),
      (∀ i, i < k → blockOk (start + i) = true ∧ cancelled (start + i) = false) →
      blockOk (start + k) = false → k < fuel →
      doExtractLoop blockOk cancelled fuel start since
        = (if k = 0 then since else some (start + k), false)) := by
  refine ⟨?_, ?_, ?_, doExtractLoop_checkpoint⟩
  · intro env since
    exact retryLoop_attempts_le env 3 0 since
  · intro env since hfail
    exact retryLoop_all_fail env hfail 3 0 since
  · intro env attempt k since since2 henv
    conv_lhs => unfold retryLoop
    rw [henv]

theorem c8_bounded_retry_witness :
    (extract_continuously (fun _ _ => (none, false)) (some 5)).1 = 4 ∧
    doExtractLoop (fun n => n != 12) (fun _ => false) 10 10 none = (some 12, false) :=
  ⟨c8_bounded_retry.2.1 (fun _ _ => (none, false)) (some 5) (fun _ _ => rfl),
   c8_bounded_retry.2.2.2 (fun n => n != 12) (fun _ => false) 2 10 10 none
     (by decide) (by decide) (by decide)⟩

/-- A transfer whose `lamports` value (5) differs from its block index
(1): its lamports index row starts with the very bytes that encode
block index 5. -/
def transferC1 : Transfer :=
  ⟨⟨List.replicate 64 48⟩, 1, 2, ⟨List.replicate 32 49⟩, ⟨List.replicate 32 50⟩, 5⟩

/-- C1, counterexample: querying the store-level
`find_transfers_by_block_index` with block index 5 on a store holding
one transfer with block index 1 and lamports 5 returns that transfer
three times — a record with a different block index, resolved from the
lamports, source and destination index rows.  Block, address and
lamports rows share one index namespace, and with no prefix extractor
configured the iterator visits every row whose key sorts at or after
the encoded query (here the lamports row `0x05…` and both address rows
`0x31…`, `0x32…`), not only rows of the queried block. -/
theorem c1_counterexample :
    (emptyStore.save_transfer transferC1).find_transfers_by_block_index 5
      = [transferC1, transferC1, transferC1] ∧ transferC1.block_index ≠ 5 := by
  constructor
  · decide
  · decide

/-- C1, amended: the store-level block-index scans are complete — on a
store built by saving records with pairwise distinct signatures, every
record of the queried kind whose block index equals the queried value
is returned — and every returned record is a stored record of the same
kind; but they are not exact: with no prefix extractor configured the
iterator runs from the encoded queried block index to the end of the
index namespace, so any record resolvable from an index row — a block
row of a different block, an address row, or a lamports row — whose key
sorts at or after the seek point is additionally returned (the HTTP
handlers re-filter by block index to restore exactness). -/
theorem c1_block_index_scan (vs : List Vote) (ts : List Transfer)
    (v : Vote) (t : Transfer) (B C : Nat)
    (hwfv : ∀ x ∈ vs, x.wf)
    (hpv : vs.Pairwise (fun a b => a.signature ≠ b.signature))
    (hv : v ∈ vs) (hvb : v.block_index = B)
    (hwft : ∀ x ∈ ts, x.wf)
    (hpt : ts.Pairwise (fun a b => a.signature ≠ b.signature))
    (ht : t ∈ ts) (htb : t.block_index = C) :
    v ∈ (saveVotesList emptyStore vs).find_votes_by_block_index B ∧
    t ∈ (saveTransfersList emptyStore ts).find_transfers_by_block_index C ∧
    (∀ (s : Store) (b : Nat) (x : Vote),
      x ∈ s.find_votes_by_block_index b → x ∈ s.find_all_votes) ∧
    (∀ (s : Store) (b : Nat) (x : Transfer),
      x ∈ s.find_transfers_by_block_index b → x ∈ s.find_all_transfers) := by
  subst hvb htb
  exact ⟨saveVotesList_complete vs emptyStore v hwfv hpv hv,
    saveTransfersList_complete ts emptyStore t hwft hpt ht,
    find_votes_by_block_index_sound,
    find_transfers_by_block_index_sound⟩

def voteC1a : Vote :=
  ⟨⟨List.replicate 64 51⟩, 7, 5, ⟨List.replicate 32 52⟩, ⟨List.replicate 32 53⟩⟩

def voteC1b : Vote :=
  ⟨⟨List.replicate 64 54⟩, 7, 6, ⟨List.replicate 32 55⟩, ⟨List.replicate 32 56⟩⟩

def transferC1w : Transfer :=
  ⟨⟨List.replicate 64 57⟩, 7, 5, ⟨List.replicate 32 58⟩, ⟨List.replicate 32 59⟩, 60⟩

theorem c1_block_index_scan_witness :
    voteC1a ∈ (saveVotesList emptyStore [voteC1a, voteC1b]).find_votes_by_block_index 7 ∧
    transferC1w ∈
      (saveTransfersList emptyStore [transferC1w]).find_transfers_by_block_index 7 :=
  ⟨(c1_block_index_scan [voteC1a, voteC1b] [transferC1w] voteC1a transferC1w 7 7
      (by decide) (by decide) (by decide) (by decide)
      (by decide) (by decide) (by decide) (by decide)).1,
   (c1_block_index_scan [voteC1a, voteC1b] [transferC1w] voteC1a transferC1w 7 7
      (by decide) (by decide) (by decide) (by decide)
      (by decide) (by decide) (by decide) (by decide)).2.1⟩
